import Mathlib

/-!
# Verification of the PRISM booking / chalan specification

Shallow embedding of the PRISM post-production management system
(reservation booking, chalan billing documents, permission evaluation)
together with proofs of the specification claims.

Conventions of the embedding:
* TypeScript numbers that hold integral values (ids, minutes) become `Nat`/`Int`;
  values produced by `parseFloat` become `Rat`, with `Option Rat` when the
  parse can fail (`none` stands for JavaScript's `NaN`).
* Calendar dates compared via `new Date(s).getTime()` are embedded as their
  epoch value (a `Nat`), since `getTime` on ISO dates is monotone in the date.
* Nullable fields become `Option` types; JavaScript truthiness tests on them
  are modelled explicitly where the code relies on them.
-/

/-! ## Permission model (src/client/src/lib/permissions.ts) -/

/-- The fourteen UI modules of the `UiModule` union type in permissions.ts. -/
inductive UiModule where
  | booking
  | leaves
  | chalan
  | customers
  | projects
  | rooms
  | editors
  | reports
  | conflictReport
  | bookingReport
  | editorReport
  | chalanReport
  | users
  | userRights
deriving DecidableEq, Repr

/-- The `ModulePermissions` interface of permissions.ts. -/
structure ModulePermissions where
  canView : Bool
  canCreate : Bool
  canEdit : Bool
  canDelete : Bool
deriving DecidableEq, Repr

/-- The all-false permission object `{canView:false,canCreate:false,canEdit:false,canDelete:false}`
used as the fallback in permissions.ts. -/
def ModulePermissions.allFalse : ModulePermissions :=
  { canView := false, canCreate := false, canEdit := false, canDelete := false }

/-- Row of `rolePermissions.admin`. -/
def adminPermissions : UiModule → ModulePermissions
  | .booking => ⟨true, true, true, true⟩
  | .leaves => ⟨true, true, true, true⟩
  | .chalan => ⟨true, true, true, true⟩
  | .customers => ⟨true, true, true, true⟩
  | .projects => ⟨true, true, true, true⟩
  | .rooms => ⟨true, true, true, true⟩
  | .editors => ⟨true, true, true, true⟩
  | .reports => ⟨true, false, false, false⟩
  | .conflictReport => ⟨true, false, false, false⟩
  | .bookingReport => ⟨true, false, false, false⟩
  | .editorReport => ⟨true, false, false, false⟩
  | .chalanReport => ⟨true, false, false, false⟩
  | .users => ⟨true, true, true, true⟩
  | .userRights => ⟨true, true, true, true⟩

/-- Row of `rolePermissions.gst`. -/
def gstPermissions : UiModule → ModulePermissions
  | .booking => ⟨true, true, true, false⟩
  | .leaves => ⟨true, true, true, false⟩
  | .chalan => ⟨false, false, false, false⟩
  | .customers => ⟨true, true, true, false⟩
  | .projects => ⟨true, true, true, false⟩
  | .rooms => ⟨true, false, false, false⟩
  | .editors => ⟨true, false, false, false⟩
  | .reports => ⟨true, false, false, false⟩
  | .conflictReport => ⟨true, false, false, false⟩
  | .bookingReport => ⟨true, false, false, false⟩
  | .editorReport => ⟨true, false, false, false⟩
  | .chalanReport => ⟨false, false, false, false⟩
  | .users => ⟨false, false, false, false⟩
  | .userRights => ⟨false, false, false, false⟩

/-- Row of `rolePermissions.non_gst`. -/
def nonGstPermissions : UiModule → ModulePermissions
  | .booking => ⟨true, true, false, false⟩
  | .leaves => ⟨true, true, false, false⟩
  | .chalan => ⟨false, false, false, false⟩
  | .customers => ⟨true, false, false, false⟩
  | .projects => ⟨true, false, false, false⟩
  | .rooms => ⟨true, false, false, false⟩
  | .editors => ⟨true, false, false, false⟩
  | .reports => ⟨true, false, false, false⟩
  | .conflictReport => ⟨true, false, false, false⟩
  | .bookingReport => ⟨true, false, false, false⟩
  | .editorReport => ⟨true, false, false, false⟩
  | .chalanReport => ⟨false, false, false, false⟩
  | .users => ⟨false, false, false, false⟩
  | .userRights => ⟨false, false, false, false⟩

/-- Row of `rolePermissions.account`. -/
def accountPermissions : UiModule → ModulePermissions
  | .booking => ⟨true, true, true, false⟩
  | .leaves => ⟨false, false, false, false⟩
  | .chalan => ⟨true, true, true, false⟩
  | .customers => ⟨true, false, false, false⟩
  | .projects => ⟨true, false, false, false⟩
  | .rooms => ⟨true, false, false, false⟩
  | .editors => ⟨true, false, false, false⟩
  | .reports => ⟨false, false, false, false⟩
  | .conflictReport => ⟨false, false, false, false⟩
  | .bookingReport => ⟨false, false, false, false⟩
  | .editorReport => ⟨false, false, false, false⟩
  | .chalanReport => ⟨true, false, false, false⟩
  | .users => ⟨false, false, false, false⟩
  | .userRights => ⟨false, false, false, false⟩

/-- Row of `rolePermissions.custom` (the static table entry: all false). -/
def customPermissions : UiModule → ModulePermissions := fun _ =>
  ⟨false, false, false, false⟩

/-- `rolePermissions[role]` for a runtime role string: `some` table for the
five known roles, `undefined` (here `none`) otherwise. -/
def rolePermissionsTable (role : String) : Option (UiModule → ModulePermissions) :=
  if role = "admin" then some adminPermissions
  else if role = "gst" then some gstPermissions
  else if role = "non_gst" then some nonGstPermissions
  else if role = "account" then some accountPermissions
  else if role = "custom" then some customPermissions
  else none

/-- `getPermissionsForRole(role, module)`: `rolePermissions[role]?.[module] || allFalse`.
For a known role the table row is a defined (truthy) object, so the fallback
fires exactly when the role is unknown. Total by construction. -/
def getPermissionsForRole (role : String) (m : UiModule) : ModulePermissions :=
  match rolePermissionsTable role with
  | some table => table m
  | none => ModulePermissions.allFalse

/-- `UserModuleAccess` grant row as consumed by `getCustomPermissions`.
The source fields are named `module` and `section`; both are Lean keywords,
so they are embedded as `moduleName` / `sectionName`. -/
structure UserModuleAccess where
  moduleName : String
  sectionName : String
  canView : Bool
  canCreate : Bool
  canEdit : Bool
  canDelete : Bool
deriving DecidableEq, Repr

/-- `moduleToSectionMap` of permissions.ts: the (module-name, section-name)
pairs mapped to each UI module. -/
def moduleToSectionMap : UiModule → List (String × String)
  | .booking => [("Operations", "Booking")]
  | .leaves => [("Operations", "Leaves Entry")]
  | .chalan => [("Operations", "Chalan Entry"), ("Operations", "Chalan Revise")]
  | .customers => [("Masters", "Customer Master")]
  | .projects => [("Masters", "Project Master")]
  | .rooms => [("Masters", "Room Master")]
  | .editors => [("Masters", "Editor Master")]
  | .reports =>
    [("Reports", "Conflict Report"), ("Reports", "Booking Report"),
     ("Reports", "Editor Report"), ("Reports", "Chalan Report")]
  | .conflictReport => [("Reports", "Conflict Report")]
  | .bookingReport => [("Reports", "Booking Report")]
  | .editorReport => [("Reports", "Editor Report")]
  | .chalanReport => [("Reports", "Chalan Report")]
  | .users => [("Utility", "User Management")]
  | .userRights => [("Utility", "User Rights")]

/-- The predicate `a.module === modName && a.section === section` of the
`customAccess.find` call inside `getCustomPermissions`. -/
def matchesSection (sec : String × String) (a : UserModuleAccess) : Bool :=
  a.moduleName == sec.1 && a.sectionName == sec.2

/-- One loop iteration of `getCustomPermissions`: look up the first grant row
matching the section pair and OR its flags into the accumulator. -/
def customPermStep (customAccess : List UserModuleAccess)
    (p : ModulePermissions) (sec : String × String) : ModulePermissions :=
  match customAccess.find? (matchesSection sec) with
  | some a =>
    { canView := p.canView || a.canView
      canCreate := p.canCreate || a.canCreate
      canEdit := p.canEdit || a.canEdit
      canDelete := p.canDelete || a.canDelete }
  | none => p

/-- `getCustomPermissions(module)` of permissions.ts, with the grant list
`customAccess` made an explicit argument: starting from all-false flags,
iterate over the module's mapped section pairs and OR in the flags of the
first matching grant row found for each pair. -/
def getCustomPermissions (customAccess : List UserModuleAccess)
    (m : UiModule) : ModulePermissions :=
  (moduleToSectionMap m).foldl (customPermStep customAccess)
    { canView := false, canCreate := false, canEdit := false, canDelete := false }

/-- A grant row matches the module when it matches one of the module's mapped
section pairs. -/
def matchesAnySection (m : UiModule) (a : UserModuleAccess) : Bool :=
  (moduleToSectionMap m).any (fun sec => matchesSection sec a)

/-- Written from the spec's words, for comparison with `getCustomPermissions`:
"computes each permission flag as the logical OR across all matching grants". -/
def specOrMergePermissions (customAccess : List UserModuleAccess)
    (m : UiModule) : ModulePermissions :=
  let matching := customAccess.filter (matchesAnySection m)
  { canView := matching.any (·.canView)
    canCreate := matching.any (·.canCreate)
    canEdit := matching.any (·.canEdit)
    canDelete := matching.any (·.canDelete) }

/-- `canEditChalans` of src/client/src/pages/chalan/revise.tsx (line 1286):
`user?.role === "admin" || user?.role === "gst" || user?.role === "account"`. -/
def canEditChalans (role : String) : Bool :=
  role == "admin" || role == "gst" || role == "account"

/-! ## Bookings and chalans (data shapes shared by the pages) -/

/-- Reservation/booking record, restricted to the fields the verified pages
read. `bookingDate` is embedded as the epoch value of
`new Date(b.bookingDate).getTime()`; `fromTime`/`toTime` are "HH:MM" strings,
`none` standing for null/empty. -/
structure Booking where
  id : Nat
  customerId : Nat
  projectId : Option Nat
  status : String
  bookingDate : Nat
  fromTime : Option String
  toTime : Option String
deriving DecidableEq, Repr

/-- Chalan (billing document) record, restricted to the fields the verified
pages read. -/
structure Chalan where
  id : Nat
  bookingId : Option Nat
  isCancelled : Bool
  cancelReason : Option String
deriving DecidableEq, Repr

/-! ## Chalan page: booking selector (revise.tsx lines 1298-1303, 1899-1923) -/

/-- JavaScript truthiness of the numeric id in `c.bookingId &&`: null/undefined
and 0 are falsy. -/
def jsTruthyId : Option Nat → Bool
  | some i => i != 0
  | none => false

/-- `bookingsWithChalans` (revise.tsx lines 1299-1303): ids of bookings that
already have an active (non-cancelled) chalan. -/
def bookingsWithChalans (chalans : List Chalan) : List Nat :=
  (chalans.filter (fun c => jsTruthyId c.bookingId && !c.isCancelled)).filterMap
    (·.bookingId)

/-- The booking options shown in the chalan-creation selector
(revise.tsx lines 1899-1923): confirmed bookings, sorted by booking date
descending, first 50, each paired with its `disabled={hasChalan}` flag. -/
def chalanBookingOptions (bookings : List Booking) (chalans : List Chalan) :
    List (Booking × Bool) :=
  ((((bookings.filter (fun b => b.status == "confirmed")).mergeSort
      (fun a b => b.bookingDate ≤ a.bookingDate)).take 50).map
    (fun b => (b, (bookingsWithChalans chalans).contains b.id)))

/-! ## Chalan page: item/total computation (revise.tsx lines 1441-1452,
1494-1505, 450-456) -/

/-- Line-item form input after `parseFloat`: `none` is `NaN` (unparsable). -/
structure ChalanItemInput where
  description : String
  quantity : Option Rat
  rate : Option Rat
deriving DecidableEq, Repr

/-- Line item as placed into a request payload. -/
structure ChalanItemPayload where
  description : String
  quantity : Rat
  rate : Rat
  amount : Rat
deriving DecidableEq, Repr

/-- `parseFloat(s) || d`: the default fires on `NaN` and on 0 (both falsy). -/
def jsNumOr (x : Option Rat) (d : Rat) : Rat :=
  match x with
  | some v => if v = 0 then d else v
  | none => d

/-- Item mapping of `createMutation`/`updateMutation` (revise.tsx lines
1441-1451 and 1494-1504): `qty = parseFloat(quantity) || 1`,
`rate = parseFloat(rate) || 0`, `amount = qty * rate`. -/
def buildCreateItem (it : ChalanItemInput) : ChalanItemPayload :=
  let qty := jsNumOr it.quantity 1
  let rate := jsNumOr it.rate 0
  { description := it.description, quantity := qty, rate := rate, amount := qty * rate }

/-- The item list of a create/update chalan request. -/
def buildCreateItems (items : List ChalanItemInput) : List ChalanItemPayload :=
  items.map buildCreateItem

/-- Item mapping of the revise payload (revise.tsx lines 450-456): both
quantity and rate default to 0, `amount = quantity * rate`. -/
def buildReviseItem (it : ChalanItemInput) : ChalanItemPayload :=
  { description := it.description
    quantity := jsNumOr it.quantity 0
    rate := jsNumOr it.rate 0
    amount := jsNumOr it.quantity 0 * jsNumOr it.rate 0 }

/-- The item list of a revise chalan request. -/
def buildReviseItems (items : List ChalanItemInput) : List ChalanItemPayload :=
  items.map buildReviseItem

/-- `totalAmount = items.reduce((sum, item) => sum + parseFloat(item.amount), 0)`
(revise.tsx lines 1452 and 1505); the string round-trip through `toString` /
`parseFloat` is the identity on the embedded rational amounts. -/
def payloadTotalAmount (items : List ChalanItemPayload) : Rat :=
  items.foldl (fun sum it => sum + it.amount) 0

/-! ## Chalan page: total hours (revise.tsx lines 1361-1380) -/

/-- `timeToMinutes` of the totalHours effect: an "HH:MM" string is embedded as
its parsed (hours, minutes) pair; `hours * 60 + (minutes || 0)`. -/
def timeToMinutes (t : Nat × Nat) : Nat :=
  t.1 * 60 + t.2

/-- The totalHours computation (revise.tsx lines 1361-1380), run whenever both
actual times are set. `breakH` is `parseFloat(breakHours)` when the break
field is non-empty and 0 otherwise; the result is the numeric value that
`toFixed(2)` then renders. -/
def computeTotalHours (fromT toT : Nat × Nat) (breakH : Rat) : Rat :=
  let fromMinutes : Int := timeToMinutes fromT
  let toMinutes : Int := timeToMinutes toT
  let breakMinutes : Rat := breakH * 60
  let diffMinutes : Int := toMinutes - fromMinutes
  let diffMinutes2 : Int := if diffMinutes < 0 then diffMinutes + 24 * 60 else diffMinutes
  ((diffMinutes2 : Rat) - breakMinutes) / 60

/-! ## Chalan page: cancelled-chalan immutability (revise.tsx lines 183-208,
790-798, 1402-1404) -/

/-- `disabled={selectedChalan.isCancelled}` on the Create Revision button
(revise.tsx line 194). -/
def reviseButtonDisabled (c : Chalan) : Bool :=
  c.isCancelled

/-- `disabled={selectedChalan.isCancelled || cancelMutation.isPending}` on the
Cancel Chalan button (revise.tsx line 203). -/
def cancelChalanButtonDisabled (c : Chalan) (cancelPending : Bool) : Bool :=
  c.isCancelled || cancelPending

/-- Outcome of `handleEditChalan` (revise.tsx lines 790-812). -/
inductive EditChalanResult where
  | rejectedCancelled
  | opensEditor (c : Chalan)
deriving DecidableEq, Repr

/-- `handleEditChalan` (revise.tsx lines 790-812): a cancelled chalan is
rejected with a destructive toast before any state change; otherwise the edit
dialog opens on the chalan. -/
def handleEditChalan (c : Chalan) : EditChalanResult :=
  if c.isCancelled then .rejectedCancelled else .opensEditor c

/-- The `?edit=` URL path (revise.tsx lines 1402-1404): the edit dialog opens
only when the chalan is found and `!chalanToEdit.isCancelled`. -/
def urlEditTarget (chalans : List Chalan) (editId : Nat) : Option Chalan :=
  match chalans.find? (fun c => c.id == editId) with
  | some c => if !c.isCancelled then some c else none
  | none => none

/-! ## Cancellation reason guards (part_002 lines 691-704, revise.tsx
lines 495-507) -/

/-- JavaScript's `String.prototype.trim` on the cancellation reason:
strip leading and trailing whitespace. (Defined over the character list so
that concrete instances evaluate; Lean's own `String.trim` agrees on these
inputs but does not reduce in the kernel.) -/
def jsTrim (s : String) : String :=
  String.mk (((s.data.dropWhile Char.isWhitespace).reverse.dropWhile
    Char.isWhitespace).reverse)

/-- `disabled={!cancelReason.trim() || cancelMutation.isPending}` on the
booking-cancel confirm button (part_002 line 701). -/
def bookingCancelDisabled (reason : String) (pending : Bool) : Bool :=
  (jsTrim reason).isEmpty || pending

/-- Click handler of the booking-cancel confirm button (part_002 lines
693-700): the mutation fires only when a booking is selected and
`cancelReason.trim()` is truthy; the result is the mutation argument. -/
def bookingCancelClick (cancelling : Option Booking) (reason : String) :
    Option (Nat × String) :=
  match cancelling with
  | some b => if (jsTrim reason).isEmpty then none else some (b.id, reason)
  | none => none

/-- `disabled={!cancelReason.trim() || cancelMutation.isPending}` on the
chalan-cancel confirm action (revise.tsx line 501). -/
def chalanCancelDisabled (reason : String) (pending : Bool) : Bool :=
  (jsTrim reason).isEmpty || pending

/-- Click handler of the chalan-cancel confirm action (revise.tsx lines
496-500): guarded on `cancelReason.trim()`. -/
def chalanCancelClick (chalanId : Nat) (reason : String) :
    Option (Nat × String) :=
  if (jsTrim reason).isEmpty then none else some (chalanId, reason)

/-! ## Status filtering (reports/booking.tsx lines 42-64, part_002 lines
140-153) -/

/-- `filteredBookings` of the booking report (booking.tsx lines 62-64):
hide-cancelled removes exactly the cancelled bookings, otherwise the fetched
list is shown unchanged. -/
def filteredBookings (hideCancelled : Bool) (bookings : List Booking) :
    List Booking :=
  if hideCancelled then bookings.filter (fun b => b.status != "cancelled")
  else bookings

/-- Comparator of the day view's `sortedBookings` (part_002 lines 143-148)
as a merge-sort order: by `fromTime` when both are set, otherwise tied. -/
def fromTimeLe (a b : Booking) : Bool :=
  match a.fromTime, b.fromTime with
  | some x, some y => x ≤ y
  | _, _ => true

/-- `sortedBookings` of the day view (part_002 lines 140-149): non-cancelled
bookings sorted by start time. -/
def sortedBookings (bookings : List Booking) : List Booking :=
  (bookings.filter (fun b => b.status != "cancelled")).mergeSort fromTimeLe

/-- `cancelledBookings` of the day view (part_002 lines 151-153): the
cancelled bookings, kept and rendered in their own section. -/
def cancelledBookings (bookings : List Booking) : List Booking :=
  bookings.filter (fun b => b.status == "cancelled")

/-! ## Conflict detector (spec §4.1).

Modelled from the spec: the server-side routes/storage implementing
`checkConflict` and reservation creation are not part of src/ (only the
client pages are); the definitions below follow §4.1 and §4.2 of the
specification word for word. -/

/-- Modelled from the spec: a half-open `[from, to)` time range in day-local
minutes (§2 Time Range). -/
structure TimeRange where
  fromM : Nat
  toM : Nat
deriving DecidableEq, Repr

/-- Modelled from the spec (§4.1): "two ranges `[a,b)` and `[c,d)` overlap iff
`a < d && c < b`". -/
def overlaps (x y : TimeRange) : Bool :=
  decide (x.fromM < y.toM) && decide (y.fromM < x.toM)

/-- Modelled from the spec (§4.1): the schedulable resource kinds. -/
inductive ResourceKind where
  | room
  | editor
deriving DecidableEq, Repr

/-- Modelled from the spec (§3): a reservation with one room, an optional
editor, a calendar date, a scheduled range and a status. -/
structure Reservation where
  id : Nat
  roomId : Nat
  editorId : Option Nat
  date : String
  range : TimeRange
  status : String
deriving DecidableEq, Repr

/-- Modelled from the spec: whether a reservation occupies the given resource
instance. -/
def occupiesResource (kind : ResourceKind) (resourceId : Nat)
    (r : Reservation) : Bool :=
  match kind with
  | .room => r.roomId == resourceId
  | .editor => r.editorId == some resourceId

/-- Modelled from the spec (§4.1 `checkConflict`): all reservations on the
resource and date whose status is not cancelled (excluding the given id)
whose range overlaps the candidate range. -/
def checkConflict (kind : ResourceKind) (resourceId : Nat) (date : String)
    (range : TimeRange) (excludeId : Option Nat)
    (reservations : List Reservation) : List Reservation :=
  reservations.filter (fun r =>
    r.status != "cancelled" &&
    (match excludeId with
     | some ex => r.id != ex
     | none => true) &&
    occupiesResource kind resourceId r &&
    r.date == date &&
    overlaps range r.range)

/-- Modelled from the spec (§4.2 `create`): a reservation is persisted only
when the conflict check passes for its room and, when set, its editor. -/
def createReservation (reservations : List Reservation) (cand : Reservation) :
    Option (List Reservation) :=
  if (checkConflict .room cand.roomId cand.date cand.range none
        reservations).isEmpty
      && (match cand.editorId with
          | some e =>
            (checkConflict .editor e cand.date cand.range none
              reservations).isEmpty
          | none => true) then
    some (reservations ++ [cand])
  else none

/-- Pairwise room invariant relation (§3): two non-cancelled reservations on
the same room and date have non-overlapping scheduled ranges. -/
def roomNoClash (a b : Reservation) : Prop :=
  a.status ≠ "cancelled" → b.status ≠ "cancelled" → a.roomId = b.roomId →
    a.date = b.date → overlaps a.range b.range = false

/-- Pairwise editor invariant relation (§3): the same independently for the
editor resource when an editor is set on both. -/
def editorNoClash (a b : Reservation) : Prop :=
  a.editorId ≠ none → a.editorId = b.editorId →
    a.status ≠ "cancelled" → b.status ≠ "cancelled" → a.date = b.date →
      overlaps a.range b.range = false

/-- The room part of the §3 invariant over a reservation store. -/
def roomInvariant (reservations : List Reservation) : Prop :=
  reservations.Pairwise roomNoClash

/-- The editor part of the §3 invariant over a reservation store. -/
def editorInvariant (reservations : List Reservation) : Prop :=
  reservations.Pairwise editorNoClash

/-! ## Theorems -/

/-- C10: `getPermissionsForRole` is total by construction (it is a Lean
function) and fails closed: for every role string outside the five known
roles, every module gets the all-false permission object. -/
theorem getPermissionsForRole_fails_closed (role : String) (m : UiModule)
    (h1 : role ≠ "admin") (h2 : role ≠ "gst") (h3 : role ≠ "non_gst")
    (h4 : role ≠ "account") (h5 : role ≠ "custom") :
    getPermissionsForRole role m = ModulePermissions.allFalse := by
  unfold getPermissionsForRole rolePermissionsTable
  rw [if_neg h1, if_neg h2, if_neg h3, if_neg h4, if_neg h5]

/-- Witness for C10 at the unknown role "manager". -/
theorem getPermissionsForRole_fails_closed_witness :
    getPermissionsForRole "manager" UiModule.chalan = ModulePermissions.allFalse :=
  getPermissionsForRole_fails_closed "manager" UiModule.chalan
    (by decide) (by decide) (by decide) (by decide) (by decide)

/-- C4 counterexample: for the role "gst" the chalan page's ad-hoc check
grants edit while the shared evaluator denies both edit and create on the
chalan module, so the two call sites do not implement one identical
contract. -/
theorem canEditChalans_gst_diverges :
    canEditChalans "gst" = true ∧
    getPermissionsForRole "gst" UiModule.chalan = ModulePermissions.allFalse := by
  constructor
  · rfl
  · rfl

/-- C4 amended: for every role string other than "gst", the chalan page's
ad-hoc `canEditChalans` check agrees with the shared permission evaluator
granting edit (or create) on the chalan module. -/
theorem canEditChalans_matches_evaluator_except_gst (role : String)
    (h : role ≠ "gst") :
    canEditChalans role =
      ((getPermissionsForRole role UiModule.chalan).canEdit ||
        (getPermissionsForRole role UiModule.chalan).canCreate) := by
  unfold canEditChalans getPermissionsForRole rolePermissionsTable
  by_cases h1 : role = "admin"
  · subst h1; rfl
  rw [if_neg h1]
  rw [if_neg h]
  by_cases h3 : role = "non_gst"
  · subst h3; rfl
  rw [if_neg h3]
  by_cases h4 : role = "account"
  · subst h4; rfl
  rw [if_neg h4]
  by_cases h5 : role = "custom"
  · subst h5
    rfl
  rw [if_neg h5]
  simp only [ModulePermissions.allFalse, Bool.or_self]
  simp [h1, h, h4]

/-- Witness for the amended C4 at the role "account". -/
theorem canEditChalans_matches_evaluator_witness :
    canEditChalans "account" =
      ((getPermissionsForRole "account" UiModule.chalan).canEdit ||
        (getPermissionsForRole "account" UiModule.chalan).canCreate) :=
  canEditChalans_matches_evaluator_except_gst "account" (by decide)

/-- C6: a cancelled chalan is immutable on the revise page: the Create
Revision and Cancel Chalan actions are disabled, the edit handler rejects
before any mutation, and the URL edit path never opens a cancelled chalan. -/
theorem cancelled_chalan_immutable (c : Chalan) (pending : Bool)
    (chalans : List Chalan) (editId : Nat) (h : c.isCancelled = true) :
    reviseButtonDisabled c = true ∧
    cancelChalanButtonDisabled c pending = true ∧
    handleEditChalan c = EditChalanResult.rejectedCancelled ∧
    urlEditTarget chalans editId ≠ some c := by
  refine ⟨h, by simp [cancelChalanButtonDisabled, h],
    by simp [handleEditChalan, h], ?_⟩
  intro hurl
  unfold urlEditTarget at hurl
  cases hfind : chalans.find? (fun x => x.id == editId) with
  | none => rw [hfind] at hurl; exact Option.noConfusion hurl
  | some c' =>
    rw [hfind] at hurl
    by_cases hc : c'.isCancelled
    · simp [hc] at hurl
    · simp [hc] at hurl
      subst hurl
      simp [h] at hc

/-- Witness for C6 at a concrete cancelled chalan. -/
theorem cancelled_chalan_immutable_witness :
    reviseButtonDisabled ⟨7, some 3, true, some "dup"⟩ = true ∧
    cancelChalanButtonDisabled ⟨7, some 3, true, some "dup"⟩ false = true ∧
    handleEditChalan ⟨7, some 3, true, some "dup"⟩ =
      EditChalanResult.rejectedCancelled ∧
    urlEditTarget [] 7 ≠ some ⟨7, some 3, true, some "dup"⟩ :=
  cancelled_chalan_immutable _ false [] 7 rfl

/-- C7: the booking-cancel and chalan-cancel mutations fire only when the
trimmed reason is non-empty, and with an empty trimmed reason both confirm
buttons are disabled. -/
theorem cancel_requires_nonempty_reason (cancelling : Option Booking)
    (chalanId : Nat) (reason : String) (x : Nat × String) (pending : Bool) :
    (bookingCancelClick cancelling reason = some x → jsTrim reason ≠ "") ∧
    (chalanCancelClick chalanId reason = some x → jsTrim reason ≠ "") ∧
    (jsTrim reason = "" →
      bookingCancelDisabled reason pending = true ∧
      chalanCancelDisabled reason pending = true) := by
  refine ⟨?_, ?_, ?_⟩
  · intro hclick
    unfold bookingCancelClick at hclick
    cases cancelling with
    | none => exact Option.noConfusion hclick
    | some b =>
      by_cases he : (jsTrim reason).isEmpty
      · simp [he] at hclick
      · exact fun habs => he ((String.isEmpty_iff _).mpr habs)
  · intro hclick
    unfold chalanCancelClick at hclick
    by_cases he : (jsTrim reason).isEmpty
    · simp [he] at hclick
    · exact fun habs => he ((String.isEmpty_iff _).mpr habs)
  · intro htrim
    have he : (jsTrim reason).isEmpty = true := (String.isEmpty_iff _).mpr htrim
    exact ⟨by simp [bookingCancelDisabled, he], by simp [chalanCancelDisabled, he]⟩

/-- Witness for C7: a concrete non-blank reason passes the guard, and a
whitespace-only reason disables both confirm buttons. -/
theorem cancel_requires_nonempty_reason_witness :
    jsTrim "client request" ≠ "" ∧
    bookingCancelDisabled " " false = true ∧
    chalanCancelDisabled " " false = true :=
  ⟨(cancel_requires_nonempty_reason
      (some ⟨4, 1, none, "confirmed", 20240101, some "10:00", some "11:00"⟩)
      9 "client request" (4, "client request") false).1 (by decide),
   ((cancel_requires_nonempty_reason none 9 " " (0, "") false).2.2
      (by decide)).1,
   ((cancel_requires_nonempty_reason none 9 " " (0, "") false).2.2
      (by decide)).2⟩

/-- Helper: folding `+ amount` over a payload list sums the amounts. -/
theorem foldl_add_amount (l : List ChalanItemPayload) (init : Rat) :
    l.foldl (fun sum it => sum + it.amount) init =
      init + (l.map (·.amount)).sum := by
  induction l generalizing init with
  | nil => simp
  | cons h t ih => simp [List.foldl_cons, ih, add_assoc]

/-- C5: in every create/update and revise chalan request, each produced line
item's amount is its quantity times its rate, the payload's total is the sum
of the item amounts, and unparsable quantities/rates take the defaults
(1 and 0 on create/update, 0 and 0 on revise). The server-side total of a
revise request is not in src/ and is modelled from the spec ("recomputes
items/total as in create") by the same summation. -/
theorem chalan_amounts_and_total (items : List ChalanItemInput) :
    (∀ p ∈ buildCreateItems items, p.amount = p.quantity * p.rate) ∧
    payloadTotalAmount (buildCreateItems items) =
      ((buildCreateItems items).map (·.amount)).sum ∧
    (∀ p ∈ buildReviseItems items, p.amount = p.quantity * p.rate) ∧
    payloadTotalAmount (buildReviseItems items) =
      ((buildReviseItems items).map (·.amount)).sum ∧
    (∀ it : ChalanItemInput, it.quantity = none →
      (buildCreateItem it).quantity = 1) ∧
    (∀ it : ChalanItemInput, it.rate = none → (buildCreateItem it).rate = 0) ∧
    (∀ it : ChalanItemInput, it.quantity = none →
      (buildReviseItem it).quantity = 0) ∧
    (∀ it : ChalanItemInput, it.rate = none → (buildReviseItem it).rate = 0) := by
  refine ⟨?_, ?_, ?_, ?_, ?_, ?_, ?_, ?_⟩
  · intro p hp
    rcases List.mem_map.mp hp with ⟨it, _, rfl⟩
    rfl
  · rw [payloadTotalAmount, foldl_add_amount, zero_add]
  · intro p hp
    rcases List.mem_map.mp hp with ⟨it, _, rfl⟩
    rfl
  · rw [payloadTotalAmount, foldl_add_amount, zero_add]
  · intro it h; simp [buildCreateItem, jsNumOr, h]
  · intro it h; simp [buildCreateItem, jsNumOr, h]
  · intro it h; simp [buildReviseItem, jsNumOr, h]
  · intro it h; simp [buildReviseItem, jsNumOr, h]

/-- Witness for C5 at concrete items, one with an unparsable quantity and
one with an unparsable rate. -/
theorem chalan_amounts_and_total_witness :
    (buildCreateItem ⟨"mix", none, some 80⟩).amount =
      (buildCreateItem ⟨"mix", none, some 80⟩).quantity *
        (buildCreateItem ⟨"mix", none, some 80⟩).rate ∧
    payloadTotalAmount (buildCreateItems
        [⟨"edit", some 2, some 150⟩, ⟨"mix", none, some 80⟩]) =
      ((buildCreateItems
        [⟨"edit", some 2, some 150⟩, ⟨"mix", none, some 80⟩]).map
          (·.amount)).sum ∧
    (buildReviseItem ⟨"mix", none, some 80⟩).amount =
      (buildReviseItem ⟨"mix", none, some 80⟩).quantity *
        (buildReviseItem ⟨"mix", none, some 80⟩).rate ∧
    payloadTotalAmount (buildReviseItems
        [⟨"edit", some 2, some 150⟩, ⟨"mix", none, some 80⟩]) =
      ((buildReviseItems
        [⟨"edit", some 2, some 150⟩, ⟨"mix", none, some 80⟩]).map
          (·.amount)).sum ∧
    (buildCreateItem ⟨"mix", none, some 80⟩).quantity = 1 ∧
    (buildCreateItem ⟨"vfx", some 3, none⟩).rate = 0 ∧
    (buildReviseItem ⟨"mix", none, some 80⟩).quantity = 0 ∧
    (buildReviseItem ⟨"vfx", some 3, none⟩).rate = 0 :=
  ⟨(chalan_amounts_and_total
      [⟨"edit", some 2, some 150⟩, ⟨"mix", none, some 80⟩]).1 _
      (List.mem_map_of_mem buildCreateItem (by simp)),
   (chalan_amounts_and_total
      [⟨"edit", some 2, some 150⟩, ⟨"mix", none, some 80⟩]).2.1,
   (chalan_amounts_and_total
      [⟨"edit", some 2, some 150⟩, ⟨"mix", none, some 80⟩]).2.2.1 _
      (List.mem_map_of_mem buildReviseItem (by simp)),
   (chalan_amounts_and_total
      [⟨"edit", some 2, some 150⟩, ⟨"mix", none, some 80⟩]).2.2.2.1,
   (chalan_amounts_and_total []).2.2.2.2.1 ⟨"mix", none, some 80⟩ rfl,
   (chalan_amounts_and_total []).2.2.2.2.2.1 ⟨"vfx", some 3, none⟩ rfl,
   (chalan_amounts_and_total []).2.2.2.2.2.2.1 ⟨"mix", none, some 80⟩ rfl,
   (chalan_amounts_and_total []).2.2.2.2.2.2.2 ⟨"vfx", some 3, none⟩ rfl⟩

/-- C9: when both actual times are set, the computed total hours equal
((toMinutes − fromMinutes, plus 1440 when that difference is negative)
− breakHours·60) / 60; an end time before the start time wraps past midnight
instead of being rejected, and a break longer than the elapsed time makes the
total negative. `toFixed(2)` then renders this value. -/
theorem computeTotalHours_spec (fromT toT : Nat × Nat) (breakH : Rat) :
    computeTotalHours fromT toT breakH =
      ((if timeToMinutes toT < timeToMinutes fromT then
          ((timeToMinutes toT : Rat) - (timeToMinutes fromT : Rat) + 1440)
        else ((timeToMinutes toT : Rat) - (timeToMinutes fromT : Rat)))
        - breakH * 60) / 60 ∧
    (timeToMinutes toT < timeToMinutes fromT →
      computeTotalHours fromT toT breakH =
        (((timeToMinutes toT : Rat) + 1440 - (timeToMinutes fromT : Rat))
          - breakH * 60) / 60) ∧
    (breakH * 60 >
        (if timeToMinutes toT < timeToMinutes fromT then
          ((timeToMinutes toT : Rat) - (timeToMinutes fromT : Rat) + 1440)
        else ((timeToMinutes toT : Rat) - (timeToMinutes fromT : Rat))) →
      computeTotalHours fromT toT breakH < 0) := by
  have hiff : ((timeToMinutes toT : Int) - (timeToMinutes fromT : Int) < 0) ↔
      timeToMinutes toT < timeToMinutes fromT := by omega
  have hmain : computeTotalHours fromT toT breakH =
      ((if timeToMinutes toT < timeToMinutes fromT then
          ((timeToMinutes toT : Rat) - (timeToMinutes fromT : Rat) + 1440)
        else ((timeToMinutes toT : Rat) - (timeToMinutes fromT : Rat)))
        - breakH * 60) / 60 := by
    unfold computeTotalHours
    dsimp only
    by_cases hlt : timeToMinutes toT < timeToMinutes fromT
    · rw [if_pos (hiff.mpr hlt), if_pos hlt]
      push_cast
      ring_nf
    · rw [if_neg (fun hc => hlt (hiff.mp hc)), if_neg hlt]
      push_cast
      ring_nf
  refine ⟨hmain, ?_, ?_⟩
  · intro hlt
    rw [hmain, if_pos hlt]
    ring_nf
  · intro hbig
    rw [hmain]
    apply div_neg_of_neg_of_pos _ (by norm_num)
    linarith

/-- Witness for C9 at 22:30 → 02:00 with a 5-hour break: the range wraps
midnight (elapsed 3.5 h) and the result is negative. -/
theorem computeTotalHours_spec_witness :
    computeTotalHours (22, 30) (2, 0) 5 =
      ((if timeToMinutes (2, 0) < timeToMinutes (22, 30) then
          ((timeToMinutes (2, 0) : Rat) - (timeToMinutes (22, 30) : Rat) + 1440)
        else ((timeToMinutes (2, 0) : Rat) - (timeToMinutes (22, 30) : Rat)))
        - 5 * 60) / 60 ∧
    computeTotalHours (22, 30) (2, 0) 5 =
      (((timeToMinutes (2, 0) : Rat) + 1440 - (timeToMinutes (22, 30) : Rat))
        - 5 * 60) / 60 ∧
    computeTotalHours (22, 30) (2, 0) 5 < 0 := by
  obtain ⟨h1, h2, h3⟩ := computeTotalHours_spec (22, 30) (2, 0) 5
  refine ⟨h1, h2 (by decide), h3 ?_⟩
  rw [if_pos (by decide)]
  norm_num [timeToMinutes]

/-- Helper: splitting a booking list on the cancelled status is a
permutation of the original list. -/
theorem filter_cancelled_partition_perm (bs : List Booking) :
    (bs.filter (fun b => b.status != "cancelled") ++
      bs.filter (fun b => b.status == "cancelled")).Perm bs := by
  have h := List.filter_append_perm (fun b : Booking => b.status != "cancelled") bs
  simpa [bne, Bool.not_not] using h

/-- C8: the report keeps every booking when hide-cancelled is off, removes
exactly the cancelled ones when it is on, and the day view keeps cancelled
bookings in their own section so that the two sections partition the fetched
list. -/
theorem status_filtering_is_caller_decision (bs : List Booking) :
    filteredBookings false bs = bs ∧
    (∀ b ∈ bs, (b ∈ filteredBookings true bs ↔ b.status ≠ "cancelled")) ∧
    (filteredBookings true bs ++
      bs.filter (fun b => b.status == "cancelled")).Perm bs ∧
    (sortedBookings bs ++ cancelledBookings bs).Perm bs ∧
    (∀ b ∈ sortedBookings bs, b.status ≠ "cancelled") ∧
    (∀ b ∈ cancelledBookings bs, b.status = "cancelled") := by
  refine ⟨rfl, ?_, ?_, ?_, ?_, ?_⟩
  · intro b hb
    simp [filteredBookings, List.mem_filter, hb]
  · exact filter_cancelled_partition_perm bs
  · have hsort : (sortedBookings bs).Perm
        (bs.filter (fun b => b.status != "cancelled")) :=
      List.mergeSort_perm _ _
    exact (hsort.append_right _).trans (filter_cancelled_partition_perm bs)
  · intro b hb
    have hb2 : b ∈ bs.filter (fun b => b.status != "cancelled") :=
      (List.mergeSort_perm _ _).subset hb
    simpa using (List.mem_filter.mp hb2).2
  · intro b hb
    simpa using (List.mem_filter.mp hb).2

/-- Witness for C8 at a concrete mixed-status booking list. -/
theorem status_filtering_witness :
    ((⟨1, 1, none, "confirmed", 5, some "10:00", some "11:00"⟩ : Booking) ∈
        filteredBookings true
          [⟨1, 1, none, "confirmed", 5, some "10:00", some "11:00"⟩,
           ⟨2, 1, none, "cancelled", 5, some "11:00", some "12:00"⟩] ↔
      ("confirmed" : String) ≠ "cancelled") ∧
    (sortedBookings
        [⟨1, 1, none, "confirmed", 5, some "10:00", some "11:00"⟩,
         ⟨2, 1, none, "cancelled", 5, some "11:00", some "12:00"⟩] ++
      cancelledBookings
        [⟨1, 1, none, "confirmed", 5, some "10:00", some "11:00"⟩,
         ⟨2, 1, none, "cancelled", 5, some "11:00", some "12:00"⟩]).Perm
      [⟨1, 1, none, "confirmed", 5, some "10:00", some "11:00"⟩,
       ⟨2, 1, none, "cancelled", 5, some "11:00", some "12:00"⟩] := by
  obtain ⟨-, h2, -, h4, -, -⟩ := status_filtering_is_caller_decision
    [⟨1, 1, none, "confirmed", 5, some "10:00", some "11:00"⟩,
     ⟨2, 1, none, "cancelled", 5, some "11:00", some "12:00"⟩]
  exact ⟨h2 _ (by simp), h4⟩


/-- Helper: membership in `bookingsWithChalans` characterises active chalans
referencing the booking (for positive booking ids, which is what the
database's serial ids produce). -/
theorem mem_bookingsWithChalans_iff (chalans : List Chalan) (bid : Nat)
    (hid : bid ≠ 0) :
    (bookingsWithChalans chalans).contains bid = true ↔
      ∃ c ∈ chalans, c.bookingId = some bid ∧ c.isCancelled = false := by
  unfold bookingsWithChalans
  rw [List.contains_iff_exists_mem_beq]
  constructor
  · rintro ⟨x, hmem, hbeq⟩
    have hx : bid = x := by simpa using hbeq
    subst hx
    rcases List.mem_filterMap.mp hmem with ⟨c, hc, hcb⟩
    rcases List.mem_filter.mp hc with ⟨hcm, hcond⟩
    simp only [Bool.and_eq_true] at hcond
    exact ⟨c, hcm, hcb, by simpa using hcond.2⟩
  · rintro ⟨c, hcm, hcb, hnc⟩
    refine ⟨bid, ?_, by simp⟩
    apply List.mem_filterMap.mpr
    refine ⟨c, List.mem_filter.mpr ⟨hcm, ?_⟩, hcb⟩
    simp [jsTruthyId, hcb, hnc, hid]

/-- C2: every booking offered in the chalan-creation selector has status
"confirmed", and it is selectable (not disabled) exactly when no
non-cancelled chalan references its id — so a booking whose only chalan is
cancelled is offered as selectable again. -/
theorem chalan_selector_confirmed_and_unique (bookings : List Booking)
    (chalans : List Chalan) (b : Booking) (sel : Bool)
    (hmem : (b, sel) ∈ chalanBookingOptions bookings chalans)
    (hid : b.id ≠ 0) :
    b.status = "confirmed" ∧
    (sel = false ↔
      ¬ ∃ c ∈ chalans, c.bookingId = some b.id ∧ c.isCancelled = false) := by
  unfold chalanBookingOptions at hmem
  rcases List.mem_map.mp hmem with ⟨b', hb', heq⟩
  injection heq with hb heqSel
  subst hb
  subst heqSel
  have hb2 : b' ∈ (bookings.filter (fun x => x.status == "confirmed")).mergeSort
      (fun a c => c.bookingDate ≤ a.bookingDate) :=
    List.mem_of_mem_take hb'
  have hb3 : b' ∈ bookings.filter (fun x => x.status == "confirmed") :=
    (List.mergeSort_perm _ _).subset hb2
  have hconf : b'.status = "confirmed" := by
    simpa using (List.mem_filter.mp hb3).2
  refine ⟨hconf, ?_⟩
  rcases hcon : (bookingsWithChalans chalans).contains b'.id with _ | _
  · refine iff_of_true rfl ?_
    intro hex
    have := (mem_bookingsWithChalans_iff chalans b'.id hid).mpr hex
    rw [hcon] at this
    exact Bool.false_ne_true this
  · refine iff_of_false (by simp) (not_not_intro ?_)
    exact (mem_bookingsWithChalans_iff chalans b'.id hid).mp hcon

/-- Witness for C2: a confirmed booking whose only chalan is cancelled is
offered and selectable. -/
theorem chalan_selector_witness :
    (⟨4, 1, none, "confirmed", 10, some "10:00", some "12:00"⟩ : Booking).status
        = "confirmed" ∧
    (false = false ↔
      ¬ ∃ c ∈ [(⟨21, some 4, true, some "void"⟩ : Chalan)],
        c.bookingId = some
          (⟨4, 1, none, "confirmed", 10, some "10:00", some "12:00"⟩ : Booking).id ∧
        c.isCancelled = false) :=
  chalan_selector_confirmed_and_unique
    [⟨4, 1, none, "confirmed", 10, some "10:00", some "12:00"⟩]
    [⟨21, some 4, true, some "void"⟩]
    ⟨4, 1, none, "confirmed", 10, some "10:00", some "12:00"⟩ false
    (by simp [chalanBookingOptions, bookingsWithChalans, jsTruthyId])
    (by decide)

/-- Helper: a list of length at most one has all members equal. -/
theorem length_le_one_unique {α : Type} {l : List α} (h : l.length ≤ 1) :
    ∀ a ∈ l, ∀ b ∈ l, a = b := by
  match l with
  | [] => intro a ha; exact absurd ha (List.not_mem_nil a)
  | [x] =>
    intro a ha b hb
    rw [List.mem_singleton.mp ha, List.mem_singleton.mp hb]
  | x :: y :: t => simp at h

/-- Helper: the permission fold is, per flag, an OR over the first matching
grant row of each mapped section pair. -/
theorem foldl_customPermStep (acc : List UserModuleAccess)
    (secs : List (String × String)) (p : ModulePermissions) :
    secs.foldl (customPermStep acc) p =
      { canView := p.canView || secs.any
          (fun sec => (acc.find? (matchesSection sec)).elim false (·.canView))
        canCreate := p.canCreate || secs.any
          (fun sec => (acc.find? (matchesSection sec)).elim false (·.canCreate))
        canEdit := p.canEdit || secs.any
          (fun sec => (acc.find? (matchesSection sec)).elim false (·.canEdit))
        canDelete := p.canDelete || secs.any
          (fun sec => (acc.find? (matchesSection sec)).elim false (·.canDelete)) } := by
  induction secs generalizing p with
  | nil => simp
  | cons s ss ih =>
    rw [List.foldl_cons, ih]
    cases hf : acc.find? (matchesSection s) with
    | some a =>
      simp [customPermStep, hf, List.any_cons, Option.elim, Bool.or_assoc,
        ModulePermissions.mk.injEq]
    | none =>
      simp [customPermStep, hf, List.any_cons, Option.elim,
        ModulePermissions.mk.injEq]

/-- Helper: when at most one grant row matches each mapped pair, the OR over
first matches per pair equals the OR of the flag over all matching rows. -/
theorem any_firstMatch_eq_any_filter (acc : List UserModuleAccess)
    (m : UiModule) (f : UserModuleAccess → Bool)
    (hu : ∀ sec ∈ moduleToSectionMap m,
      (acc.filter (matchesSection sec)).length ≤ 1) :
    (moduleToSectionMap m).any
        (fun sec => (acc.find? (matchesSection sec)).elim false f) =
      (acc.filter (matchesAnySection m)).any f := by
  rw [Bool.eq_iff_iff]
  simp only [List.any_eq_true]
  constructor
  · rintro ⟨sec, hsec, hflag⟩
    cases hfind : acc.find? (matchesSection sec) with
    | none => rw [hfind] at hflag; exact absurd hflag (by simp [Option.elim])
    | some a =>
      rw [hfind] at hflag
      have hmem := List.mem_of_find?_eq_some hfind
      have hma : matchesSection sec a = true := List.find?_some hfind
      refine ⟨a, List.mem_filter.mpr ⟨hmem, ?_⟩, hflag⟩
      unfold matchesAnySection
      exact List.any_eq_true.mpr ⟨sec, hsec, hma⟩
  · rintro ⟨a, hafil, hfa⟩
    rcases List.mem_filter.mp hafil with ⟨hamem, hany⟩
    unfold matchesAnySection at hany
    rcases List.any_eq_true.mp hany with ⟨sec, hsec, hma⟩
    refine ⟨sec, hsec, ?_⟩
    cases hfind : acc.find? (matchesSection sec) with
    | none => exact absurd hma ((List.find?_eq_none.mp hfind) a hamem)
    | some a' =>
      have ha'mem := List.mem_of_find?_eq_some hfind
      have hma' : matchesSection sec a' = true := List.find?_some hfind
      have heq : a' = a :=
        length_le_one_unique (hu sec hsec) a'
          (List.mem_filter.mpr ⟨ha'mem, hma'⟩) a
          (List.mem_filter.mpr ⟨hamem, hma⟩)
      show f a' = true
      rw [heq]
      exact hfa

/-- C3 counterexample: two grant rows for the same mapped pair
("Operations", "Chalan Entry"), the first all-false and the second granting
view — a matching grant has `canView = true`, yet `getCustomPermissions`
computes `canView = false` because only the first matching row per pair is
consulted, so the flags are not the OR across all matching grant rows. -/
theorem custom_permissions_not_or_merge_on_duplicates :
    (getCustomPermissions
      [⟨"Operations", "Chalan Entry", false, false, false, false⟩,
       ⟨"Operations", "Chalan Entry", true, true, true, true⟩]
      UiModule.chalan).canView = false ∧
    (specOrMergePermissions
      [⟨"Operations", "Chalan Entry", false, false, false, false⟩,
       ⟨"Operations", "Chalan Entry", true, true, true, true⟩]
      UiModule.chalan).canView = true := by
  constructor
  · rfl
  · rfl

/-- C3 amended: whenever at most one grant row matches each of the module's
mapped (module-name, section-name) pairs — the expected shape of the grant
table — each permission flag computed by `getCustomPermissions` is the
logical OR of that flag across all grant rows matching any mapped pair; and
unconditionally, when no grant row matches any mapped pair, all four flags
are false (never an error). -/
theorem custom_permissions_or_merge (acc : List UserModuleAccess)
    (m : UiModule) :
    ((∀ sec ∈ moduleToSectionMap m,
        (acc.filter (matchesSection sec)).length ≤ 1) →
      getCustomPermissions acc m = specOrMergePermissions acc m) ∧
    ((∀ a ∈ acc, matchesAnySection m a = false) →
      getCustomPermissions acc m = ModulePermissions.allFalse) := by
  constructor
  · intro hu
    rw [getCustomPermissions, foldl_customPermStep, specOrMergePermissions]
    simp only [Bool.false_or, ModulePermissions.mk.injEq]
    exact ⟨any_firstMatch_eq_any_filter acc m (·.canView) hu,
      any_firstMatch_eq_any_filter acc m (·.canCreate) hu,
      any_firstMatch_eq_any_filter acc m (·.canEdit) hu,
      any_firstMatch_eq_any_filter acc m (·.canDelete) hu⟩
  · intro hnone
    rw [getCustomPermissions, foldl_customPermStep]
    have hflag : ∀ f : UserModuleAccess → Bool,
        (moduleToSectionMap m).any
          (fun sec => (acc.find? (matchesSection sec)).elim false f) = false := by
      intro f
      rw [List.any_eq_false]
      intro sec hsec
      cases hfind : acc.find? (matchesSection sec) with
      | none => simp [Option.elim]
      | some a =>
        have hma := List.find?_some hfind
        have hamem := List.mem_of_find?_eq_some hfind
        have hall : matchesAnySection m a = true := by
          unfold matchesAnySection
          exact List.any_eq_true.mpr ⟨sec, hsec, hma⟩
        rw [hnone a hamem] at hall
        exact absurd hall (by simp)
    rw [hflag (·.canView), hflag (·.canCreate), hflag (·.canEdit),
      hflag (·.canDelete)]
    rfl

/-- Witness for the amended C3: distinct mapped pairs, view granted through
one of them only (OR-merge visible), and the empty grant list giving
all-false. -/
theorem custom_permissions_or_merge_witness :
    getCustomPermissions
        [⟨"Operations", "Chalan Entry", false, false, false, false⟩,
         ⟨"Operations", "Chalan Revise", true, false, false, false⟩]
        UiModule.chalan =
      specOrMergePermissions
        [⟨"Operations", "Chalan Entry", false, false, false, false⟩,
         ⟨"Operations", "Chalan Revise", true, false, false, false⟩]
        UiModule.chalan ∧
    getCustomPermissions [] UiModule.chalan = ModulePermissions.allFalse :=
  ⟨(custom_permissions_or_merge
      [⟨"Operations", "Chalan Entry", false, false, false, false⟩,
       ⟨"Operations", "Chalan Revise", true, false, false, false⟩]
      UiModule.chalan).1 (by decide),
   (custom_permissions_or_merge [] UiModule.chalan).2 (by simp)⟩

/-- Helper: interval overlap is symmetric. -/
theorem overlaps_comm (x y : TimeRange) : overlaps x y = overlaps y x := by
  unfold overlaps
  rw [Bool.and_comm]

/-- C1 (amended): creation guarded by the conflict detector preserves the
pairwise no-overlap invariant per room and per assigned editor under the
strict half-open test `a < d && c < b`; under that test a zero-length range
overlaps exactly the ranges strictly containing its point (so not itself and
nothing it merely touches), a range ending exactly where another begins does
not conflict, and an identical non-empty range conflicts with itself. -/
theorem reservation_no_overlap_invariant :
    (∀ (rs : List Reservation) (cand : Reservation) (rs' : List Reservation),
      roomInvariant rs → editorInvariant rs →
      createReservation rs cand = some rs' →
      roomInvariant rs' ∧ editorInvariant rs') ∧
    (∀ x y : TimeRange, x.fromM = x.toM →
      (overlaps x y = true ↔ y.fromM < x.fromM ∧ x.fromM < y.toM)) ∧
    (∀ x y : TimeRange, x.toM = y.fromM → overlaps x y = false) ∧
    (∀ x : TimeRange, x.fromM < x.toM → overlaps x x = true) := by
  refine ⟨?_, ?_, ?_, ?_⟩
  · intro rs cand rs' hroom heditor hcreate
    unfold createReservation at hcreate
    split_ifs at hcreate with hcond
    simp only [Bool.and_eq_true] at hcond
    obtain ⟨hA, hB⟩ := hcond
    injection hcreate with hrs'
    subst hrs'
    rw [List.isEmpty_iff] at hA
    unfold checkConflict at hA
    have hnotRoom := List.filter_eq_nil_iff.mp hA
    constructor
    · unfold roomInvariant
      rw [List.pairwise_append]
      refine ⟨hroom, List.pairwise_singleton .., ?_⟩
      intro a ha b hb
      rw [List.mem_singleton.mp hb]
      intro hsa hsc hrm hdt
      cases hov : overlaps a.range cand.range with
      | false => rfl
      | true =>
        exact absurd (by simp [hsa, occupiesResource, hrm, hdt,
            overlaps_comm cand.range a.range, hov]) (hnotRoom a ha)
    · unfold editorInvariant
      rw [List.pairwise_append]
      refine ⟨heditor, List.pairwise_singleton .., ?_⟩
      intro a ha b hb
      rw [List.mem_singleton.mp hb]
      intro hne hEq hsa hsc hdt
      rcases Option.ne_none_iff_exists'.mp hne with ⟨e, hae⟩
      have hce : cand.editorId = some e := hEq ▸ hae
      rw [hce] at hB
      rw [List.isEmpty_iff] at hB
      unfold checkConflict at hB
      have hnotEd := List.filter_eq_nil_iff.mp hB
      cases hov : overlaps a.range cand.range with
      | false => rfl
      | true =>
        exact absurd (by simp [hsa, occupiesResource, hae, hdt,
            overlaps_comm cand.range a.range, hov]) (hnotEd a ha)
  · intro x y h
    simp only [overlaps, Bool.and_eq_true, decide_eq_true_eq]
    omega
  · intro x y h
    rw [← Bool.not_eq_true]
    simp only [overlaps, Bool.and_eq_true, decide_eq_true_eq]
    omega
  · intro x h
    simp only [overlaps, Bool.and_eq_true, decide_eq_true_eq]
    omega

/-- C1 counterexample: under the spec's own overlap test `a < d && c < b`
the zero-length range [300,300) does overlap [200,400), refuting
"zero-length ranges never overlap anything"; and [300,300) does not overlap
an identical copy of itself, refuting the unqualified "an identical exact
range is a conflict". -/
theorem zero_length_overlap_counterexample :
    overlaps ⟨300, 300⟩ ⟨200, 400⟩ = true ∧
    overlaps ⟨300, 300⟩ ⟨300, 300⟩ = false := by
  constructor
  · rfl
  · rfl

/-- Witness for C1: inserting a back-to-back reservation (11:00-12:00 after
10:00-11:00, same room, same editor, same date) passes the conflict check and
keeps both invariants; the boundary facts hold at concrete ranges. -/
theorem reservation_no_overlap_invariant_witness :
    (roomInvariant
        ([⟨1, 1, some 5, "2024-01-01", ⟨600, 660⟩, "confirmed"⟩] ++
          [⟨2, 1, some 5, "2024-01-01", ⟨660, 720⟩, "tentative"⟩]) ∧
      editorInvariant
        ([⟨1, 1, some 5, "2024-01-01", ⟨600, 660⟩, "confirmed"⟩] ++
          [⟨2, 1, some 5, "2024-01-01", ⟨660, 720⟩, "tentative"⟩])) ∧
    (overlaps ⟨300, 300⟩ ⟨200, 400⟩ = true ↔ 200 < 300 ∧ 300 < 400) ∧
    overlaps ⟨600, 660⟩ ⟨660, 720⟩ = false ∧
    overlaps ⟨600, 660⟩ ⟨600, 660⟩ = true :=
  ⟨reservation_no_overlap_invariant.1
      [⟨1, 1, some 5, "2024-01-01", ⟨600, 660⟩, "confirmed"⟩]
      ⟨2, 1, some 5, "2024-01-01", ⟨660, 720⟩, "tentative"⟩
      ([⟨1, 1, some 5, "2024-01-01", ⟨600, 660⟩, "confirmed"⟩] ++
        [⟨2, 1, some 5, "2024-01-01", ⟨660, 720⟩, "tentative"⟩])
      (List.pairwise_singleton ..) (List.pairwise_singleton ..) (by decide),
   reservation_no_overlap_invariant.2.1 ⟨300, 300⟩ ⟨200, 400⟩ rfl,
   reservation_no_overlap_invariant.2.2.1 ⟨600, 660⟩ ⟨660, 720⟩ rfl,
   reservation_no_overlap_invariant.2.2.2 ⟨600, 660⟩ (by decide)⟩
